import Mathlib

/-!
Verification development for the GDS Burp Suite API transaction normalizer
(src/gds/pub/burp/burp.py).

The Python module is shallowly embedded: each Python function or code block
of burp.py is translated into an executable Lean definition.  Python strings
are `String`, Python ints are `Int` (unbounded), Python `None` is `Option`,
raised exceptions are `Except PyErr`.  Behaviour of the Python 2 standard
library pieces the module calls (str.title, str.split, int(), urlparse,
urljoin, datetime.strptime) is modelled by dedicated `py...` definitions,
restricted to ASCII text and to the C locale, which is all the module
exercises.
-/

namespace GdsBurp

/-- Python exception kinds that burp.py can raise or catch. -/
inductive PyErr where
  | keyError
  | valueError
  | typeError
  | attributeError
deriving DecidableEq, Repr

/-! ## Python string primitives -/

/-- Python whitespace characters (string.whitespace, ASCII). -/
def isPySpace (c : Char) : Bool :=
  c == ' ' || c == '\t' || c == '\n' || c == '\r' || c == '\x0b' || c == '\x0c'

/-- ASCII lowercasing of a string, as Python str.lower on ASCII input. -/
def pyLower (s : String) : String :=
  String.mk (s.data.map Char.toLower)

/-- Helper for `pyTitle`: walks the characters keeping track of whether the
previous character was cased (a letter, for ASCII input). -/
def pyTitleAux : List Char → Bool → List Char
  | [], _ => []
  | c :: cs, prevCased =>
    if c.isAlpha then
      (if prevCased then c.toLower else c.toUpper) :: pyTitleAux cs true
    else
      c :: pyTitleAux cs false

/-- Python str.title() on ASCII input: the first letter of every run of
letters is uppercased, the following letters lowercased; other characters
are kept and reset the word boundary. -/
def pyTitle (s : String) : String :=
  String.mk (pyTitleAux s.data false)

/-- Does the character list `l` start with `p`? -/
def listStartsWith : List Char → List Char → Bool
  | _, [] => true
  | [], _ :: _ => false
  | a :: as, b :: bs => a == b && listStartsWith as bs

/-- Is `n` a contiguous sublist of `l`? -/
def listHasSub : List Char → List Char → Bool
  | [], n => n.isEmpty
  | c :: cs, n => listStartsWith (c :: cs) n || listHasSub cs n

/-- Python `needle in hay` on strings: substring containment. -/
def pyIn (needle hay : String) : Bool :=
  listHasSub hay.data needle.data

/-- Helper for `pySplitWS`: accumulates the current word (reversed). -/
def pySplitWSAux : List Char → List Char → List String
  | [], cur => if cur.isEmpty then [] else [String.mk cur.reverse]
  | c :: cs, cur =>
    if isPySpace c then
      if cur.isEmpty then pySplitWSAux cs []
      else String.mk cur.reverse :: pySplitWSAux cs []
    else
      pySplitWSAux cs (c :: cur)

/-- Python str.split() with no separator: split on runs of whitespace,
dropping leading and trailing whitespace, never producing empty parts. -/
def pySplitWS (s : String) : List String :=
  pySplitWSAux s.data []

/-- Decimal value of a digit list; `none` if empty or a non-digit occurs. -/
def digitsToNat : List Char → Nat → Option Nat
  | [], acc => some acc
  | c :: cs, acc =>
    if c.isDigit then digitsToNat cs (acc * 10 + (c.toNat - '0'.toNat))
    else none

/-- The sign-and-digits core of int() on an already-stripped character
list: an optional single sign followed by one or more decimal digits. -/
def pyIntChars : List Char → Option Int
  | [] => none
  | c :: rest =>
    if c = '-' then
      if rest.isEmpty then none
      else
        match digitsToNat rest 0 with
        | none => none
        | some k => some (-(k : Int))
    else if c = '+' then
      if rest.isEmpty then none
      else
        match digitsToNat rest 0 with
        | none => none
        | some k => some ((k : Int))
    else
      match digitsToNat (c :: rest) 0 with
      | none => none
      | some k => some ((k : Int))

/-- Python int(string): strips surrounding whitespace, accepts an optional
single sign followed by one or more decimal digits; anything else raises
ValueError, modelled as `none`.  Values are unbounded as in Python. -/
def pyInt (s : String) : Option Int :=
  pyIntChars ((s.data.dropWhile isPySpace).reverse.dropWhile isPySpace).reverse

/-- Python string slice s[:n] with an arbitrary (possibly negative) bound,
as used by burp.py body reconciliation: a negative bound counts from the
end, clamped at zero. -/
def pySliceTo (s : String) (n : Int) : String :=
  if n < 0 then String.mk (s.data.take (s.length - n.natAbs))
  else String.mk (s.data.take n.toNat)

/-! ## Python dict as an association list

The header mappings of burp.py are Python dicts from strings to strings.
They are modelled as association lists with unique keys in insertion order:
lookup finds the first matching key, update replaces in place or appends. -/

/-- Python dict lookup: first value stored under `k`. -/
def dictLookup (m : List (String × String)) (k : String) : Option String :=
  match m with
  | [] => none
  | (k0, v0) :: rest => if k0 == k then some v0 else dictLookup rest k

/-- Python dict.get(k, d). -/
def dictGetD (m : List (String × String)) (k d : String) : String :=
  (dictLookup m k).getD d

/-- Python `k in dict`. -/
def dictHasKey (m : List (String × String)) (k : String) : Bool :=
  (dictLookup m k).isSome

/-- Python dict.update({k: v}) restricted to one key: replace the value of
the first entry with key `k`, or append the pair if the key is absent. -/
def dictSet (m : List (String × String)) (k v : String) : List (String × String) :=
  match m with
  | [] => [(k, v)]
  | (k0, v0) :: rest =>
    if k0 == k then (k0, v) :: rest else (k0, v0) :: dictSet rest k v

/-- Split on every occurrence of a single separator character, keeping empty
parts, as Python str.split(sep) with a one-character separator. -/
def splitCharAux : List Char → Char → List Char → List String
  | [], _, cur => [String.mk cur.reverse]
  | c :: cs, sep, cur =>
    if c == sep then String.mk cur.reverse :: splitCharAux cs sep []
    else splitCharAux cs sep (c :: cur)

/-- Python str.split(sep) for a one-character separator. -/
def pySplitChar (s : String) (sep : Char) : List String :=
  splitCharAux s.data sep []

/-- Python str.split(sep, 1): split at the first occurrence of `sep`; if the
separator is absent the second component is empty. -/
def pySplit1 (s : String) (sep : Char) : String × String :=
  match s.data.findIdx? (fun x => x == sep) with
  | none => (s, "")
  | some i => (String.mk (s.data.take i), String.mk (s.data.drop (i + 1)))

/-- Index of the first occurrence of `c` in `l` at or after `start`. -/
def findIdxFrom (l : List Char) (c : Char) (start : Nat) : Option Nat :=
  ((l.drop start).findIdx? (fun x => x == c)).map (fun r => start + r)

/-- Python str.rfind(c): index of the last occurrence of `c`. -/
def pyRFindChar (s : String) (c : Char) : Option Nat :=
  match s.data.reverse.findIdx? (fun x => x == c) with
  | none => none
  | some j => some (s.data.length - 1 - j)

/-- Does string `s` start with `p` (Python s.startswith(p))? -/
def strStarts (s p : String) : Bool :=
  listStartsWith s.data p.data

/-! ## Model of the Python 2.7 urlparse module

burp.py imports `urljoin` and `urlparse` from the Python 2 standard-library
module `urlparse`.  The definitions below translate that module (CPython
2.7, Lib/urlparse.py): `urlsplit` scheme/netloc/query/fragment splitting
including the literal `http` fast path and the port-number heuristic, the
`;`-parameter splitting of `urlparse`, the IPv6 bracket ValueError, the
scheme tables `uses_relative`/`uses_netloc`/..., and the RFC 1808 relative
path merge of `urljoin` with its `.`/`..` segment loops. -/

/-- Characters allowed in a URL scheme (urlparse.scheme_chars). -/
def isSchemeChar (c : Char) : Bool :=
  c.isAlpha || c.isDigit || c == '+' || c == '-' || c == '.'

/-- urlparse.uses_relative. -/
def usesRelative : List String :=
  ["ftp", "http", "gopher", "nntp", "imap", "wais", "file", "https", "shttp",
   "mms", "prospero", "rtsp", "rtspu", "", "sftp", "svn", "svn+ssh"]

/-- urlparse.uses_netloc. -/
def usesNetloc : List String :=
  ["ftp", "http", "gopher", "nntp", "telnet", "imap", "wais", "file", "mms",
   "https", "shttp", "snews", "prospero", "rtsp", "rtspu", "rsync", "",
   "svn", "svn+ssh", "sftp", "nfs", "git", "git+ssh"]

/-- urlparse.uses_params. -/
def usesParams : List String :=
  ["ftp", "hdl", "prospero", "http", "imap", "https", "shttp", "rtsp",
   "rtspu", "sip", "sips", "mms", "", "sftp"]

/-- urlparse.uses_query. -/
def usesQuery : List String :=
  ["http", "wais", "imap", "https", "shttp", "mms", "gopher", "rtsp",
   "rtspu", "sip", "sips", ""]

/-- urlparse.uses_fragment. -/
def usesFragment : List String :=
  ["ftp", "hdl", "http", "gopher", "news", "nntp", "wais", "https", "shttp",
   "snews", "file", "prospero", ""]

/-- urlparse._splitnetloc: cut the netloc (up to the first of "/", "?", "#")
out of `s` starting at index `start`; returns (netloc, remainder). -/
def splitNetloc (s : String) (start : Nat) : String × String :=
  let rest := s.data.drop start
  let r := (rest.findIdx? (fun c => c == '/' || c == '?' || c == '#')).getD rest.length
  (String.mk (rest.take r), String.mk (rest.drop r))

/-- The unbalanced-bracket test that makes urlsplit raise
ValueError("Invalid IPv6 URL"). -/
def ipv6Bad (netloc : String) : Bool :=
  (pyIn "[" netloc && !(pyIn "]" netloc)) ||
  (pyIn "]" netloc && !(pyIn "[" netloc))

/-- Final fragment/query splitting shared by both branches of urlsplit.
Returns (scheme, netloc, path, query, fragment). -/
def urlsplitTail (scheme netloc url : String) (allowFrag allowQuery : Bool) :
    String × String × String × String × String :=
  let (url, fragment) := if allowFrag && pyIn "#" url then pySplit1 url '#' else (url, "")
  let (url, query) := if allowQuery && pyIn "?" url then pySplit1 url '?' else (url, "")
  (scheme, netloc, url, query, fragment)

/-- The netloc / fragment / query handling after scheme extraction in the
general branch of urlsplit. -/
def urlsplitRest (scheme url : String) :
    Except PyErr (String × String × String × String × String) :=
  if strStarts url "//" then
    let (netloc, url2) := splitNetloc url 2
    if ipv6Bad netloc then .error .valueError
    else .ok (urlsplitTail scheme netloc url2 (usesFragment.contains scheme) (usesQuery.contains scheme))
  else
    .ok (urlsplitTail scheme "" url (usesFragment.contains scheme) (usesQuery.contains scheme))

/-- urlparse.urlsplit(url, scheme) with allow_fragments=True.  Returns
(scheme, netloc, path, query, fragment) or the ValueError raised on an
unbalanced IPv6 bracket. -/
def pyUrlsplit (url0 scheme0 : String) :
    Except PyErr (String × String × String × String × String) :=
  match url0.data.findIdx? (fun c => c == ':') with
  | some i =>
    if 0 < i then
      if String.mk (url0.data.take i) == "http" then
        -- the literal "http" fast path of urlsplit
        let scheme := pyLower (String.mk (url0.data.take i))
        let url := String.mk (url0.data.drop (i + 1))
        if strStarts url "//" then
          let (netloc, url2) := splitNetloc url 2
          if ipv6Bad netloc then .error .valueError
          else .ok (urlsplitTail scheme netloc url2 true true)
        else
          .ok (urlsplitTail scheme "" url true true)
      else
        if (url0.data.take i).all isSchemeChar then
          -- not a port number: the part after ":" is empty or has a non-digit
          let rest := String.mk (url0.data.drop (i + 1))
          if rest == "" || rest.data.any (fun c => !c.isDigit) then
            urlsplitRest (pyLower (String.mk (url0.data.take i))) rest
          else
            urlsplitRest scheme0 url0
        else
          urlsplitRest scheme0 url0
    else
      urlsplitRest scheme0 url0
  | none => urlsplitRest scheme0 url0

/-- The ParseResult of urlparse.urlparse: scheme, netloc, path, params,
query, fragment. -/
structure UrlParsed where
  scheme : String
  netloc : String
  path : String
  params : String
  query : String
  fragment : String
deriving DecidableEq, Repr

/-- urlparse._splitparams: split ";"-parameters off the last path segment. -/
def splitParams (p : String) : String × String :=
  if pyIn "/" p then
    let j := (pyRFindChar p '/').getD 0
    match findIdxFrom p.data ';' j with
    | none => (p, "")
    | some i => (String.mk (p.data.take i), String.mk (p.data.drop (i + 1)))
  else
    pySplit1 p ';'

/-- urlparse.urlparse(url, scheme) with allow_fragments=True. -/
def pyUrlparseWith (url scheme0 : String) : Except PyErr UrlParsed :=
  match pyUrlsplit url scheme0 with
  | .error e => .error e
  | .ok (scheme, netloc, p, query, fragment) =>
    if usesParams.contains scheme && pyIn ";" p then
      let (p2, params) := splitParams p
      .ok ⟨scheme, netloc, p2, params, query, fragment⟩
    else
      .ok ⟨scheme, netloc, p, "", query, fragment⟩

/-- urlparse.urlparse with the default empty scheme. -/
def pyUrlparse (url : String) : Except PyErr UrlParsed :=
  pyUrlparseWith url ""

/-- urlparse.urlunsplit. -/
def pyUrlunsplit (scheme netloc path query fragment : String) : String :=
  let url :=
    if netloc != "" || (path != "" && strStarts path "//") then
      let u := if path != "" && !(strStarts path "/") then "/" ++ path else path
      "//" ++ netloc ++ u
    else path
  let url := if scheme != "" then scheme ++ ":" ++ url else url
  let url := if query != "" then url ++ "?" ++ query else url
  if fragment != "" then url ++ "#" ++ fragment else url

/-- urlparse.urlunparse. -/
def pyUrlunparse (scheme netloc path params query fragment : String) : String :=
  pyUrlunsplit scheme netloc (if params != "" then path ++ ";" ++ params else path) query fragment

/-- ParseResult.geturl(). -/
def UrlParsed.geturl (u : UrlParsed) : String :=
  pyUrlunparse u.scheme u.netloc u.path u.params u.query u.fragment

/-- One pass of the ".." deletion loop of urljoin: find the first index i in
[1, length-1) with segment ".." whose predecessor is neither "" nor "..",
and delete the pair; `none` when no such index exists. -/
def findDelAux (segs : List String) (n : Nat) : Nat → Nat → Option (List String)
  | 0, _ => none
  | fuel + 1, i =>
    if i < n then
      if segs.getD i "" == ".." && segs.getD (i - 1) "" != "" && segs.getD (i - 1) "" != ".." then
        some (segs.take (i - 1) ++ segs.drop (i + 1))
      else
        findDelAux segs n fuel (i + 1)
    else none

/-- One find-and-delete scan over the segments, as the inner while loop of
urljoin (the scan stops one short of the last segment). -/
def findDel (segs : List String) : Option (List String) :=
  findDelAux segs (segs.length - 1) segs.length 1

/-- Iterate `findDel` to a fixed point (each hit removes two segments, so
the list length is enough fuel). -/
def resolveDotsAux : Nat → List String → List String
  | 0, segs => segs
  | fuel + 1, segs =>
    match findDel segs with
    | some s => resolveDotsAux fuel s
    | none => segs

/-- The full ".." resolution loop of urljoin. -/
def resolveDots (segs : List String) : List String :=
  resolveDotsAux segs.length segs

/-- urlparse.urljoin on two non-empty strings (the falsy short-circuits are
handled by the caller, see `pyUrljoinOpt`). -/
def pyUrljoinCore (base url : String) : Except PyErr String := do
  let b ← pyUrlparseWith base ""
  let u ← pyUrlparseWith url b.scheme
  if u.scheme != b.scheme || !(usesRelative.contains u.scheme) then
    return url
  if usesNetloc.contains u.scheme && u.netloc != "" then
    return pyUrlunparse u.scheme u.netloc u.path u.params u.query u.fragment
  let netloc := if usesNetloc.contains u.scheme then b.netloc else u.netloc
  if strStarts u.path "/" then
    return pyUrlunparse u.scheme netloc u.path u.params u.query u.fragment
  if u.path == "" && u.params == "" then
    let query := if u.query == "" then b.query else u.query
    return pyUrlunparse u.scheme netloc b.path b.params query u.fragment
  let segments := (pySplitChar b.path '/').dropLast ++ pySplitChar u.path '/'
  let segments := if segments.getLast? == some "." then segments.dropLast ++ [""] else segments
  let segments := segments.filter (fun s => s != ".")
  let segments := resolveDots segments
  let segments :=
    if segments == ["..", ""] then [""]
    else if 2 ≤ segments.length && segments.getLast? == some ".." then
      segments.dropLast.dropLast ++ [""]
    else segments
  return pyUrlunparse u.scheme netloc (String.intercalate "/" segments) u.params u.query u.fragment

/-- Is this optional string truthy in Python (neither None nor empty)? -/
def pyTruthy : Option String → Bool
  | none => false
  | some s => s != ""

/-- urljoin as called on line 126 of burp.py, where both arguments may be
None: `if not base: return url` and `if not url: return base` may hand back
None itself, which the subsequent urlparse call cannot digest. -/
def pyUrljoinOpt (base url : Option String) : Except PyErr (Option String) :=
  if !pyTruthy base then .ok url
  else if !pyTruthy url then .ok base
  else (pyUrljoinCore (base.getD "") (url.getD "")).map some

/-! ## Model of datetime.strptime for the HTTP date format

burp.py parses the response Date header with
datetime.strptime(value, "%a, %d %b %Y %H:%M:%S %Z") and catches
ValueError/TypeError.  The parser below models the CPython _strptime
matcher for exactly that format string in the C locale: abbreviated
weekday and month names matched case-insensitively, \d{1,2} day/hour/
minute/second fields, a four-digit year, literal "," and ":" characters,
runs of whitespace for the blanks, a timezone name (utc or gmt; local
timezone names are not modelled), an anchored full match, and the range
validation performed by the datetime constructor. -/

/-- Lowercased abbreviated weekday names of the C locale. -/
def weekAbbrs : List String := ["mon", "tue", "wed", "thu", "fri", "sat", "sun"]

/-- Lowercased abbreviated month names of the C locale. -/
def monthAbbrs : List String :=
  ["jan", "feb", "mar", "apr", "may", "jun", "jul", "aug", "sep", "oct", "nov", "dec"]

/-- Timezone names the %Z directive accepts (modulo local names). -/
def tzNames : List String := ["utc", "gmt"]

/-- Consume one-or-more whitespace characters (the \s+ a blank in a
strptime format turns into). -/
def skipWS1 : List Char → Option (List Char)
  | c :: cs => if isPySpace c then some (cs.dropWhile isPySpace) else none
  | [] => none

/-- Consume exactly one expected character. -/
def expectChar (c : Char) : List Char → Option (List Char)
  | x :: xs => if x == c then some xs else none
  | [] => none

/-- Greedily consume up to `n` leading digits. -/
def takeDigitsUpTo : Nat → List Char → List Char × List Char
  | 0, l => ([], l)
  | _ + 1, [] => ([], [])
  | n + 1, c :: cs =>
    if c.isDigit then
      let (d, r) := takeDigitsUpTo n cs
      (c :: d, r)
    else ([], c :: cs)

/-- Decimal value of a (known-good) digit list. -/
def digitsNat (l : List Char) : Nat :=
  l.foldl (fun a c => a * 10 + (c.toNat - '0'.toNat)) 0

/-- Consume three characters and lowercase them (the abbreviated names and
timezone names of the format are all three letters long). -/
def take3 : List Char → Option (String × List Char)
  | a :: b :: c :: rest => some (pyLower (String.mk [a, b, c]), rest)
  | _ => none

/-- The naive datetime value datetime.strptime produces (tzinfo is None). -/
structure PyDateTime where
  year : Nat
  month : Nat
  day : Nat
  hour : Nat
  minute : Nat
  second : Nat
deriving DecidableEq, Repr

/-- Gregorian leap year, as the datetime module computes it. -/
def isLeap (y : Nat) : Bool :=
  y % 4 == 0 && (y % 100 != 0 || y % 400 == 0)

/-- Days in a month, as the datetime module computes it. -/
def daysInMonth (y m : Nat) : Nat :=
  if m == 2 then (if isLeap y then 29 else 28)
  else if m == 4 || m == 6 || m == 9 || m == 11 then 30
  else 31

/-- The range validation of the datetime constructor; out-of-range fields
raise ValueError, modelled as `none`. -/
def mkPyDateTime (y mo d h mi s : Nat) : Option PyDateTime :=
  if 1 ≤ y ∧ y ≤ 9999 ∧ 1 ≤ mo ∧ mo ≤ 12 ∧ 1 ≤ d ∧ d ≤ daysInMonth y mo
      ∧ h ≤ 23 ∧ mi ≤ 59 ∧ s ≤ 59 then
    some ⟨y, mo, d, h, mi, s⟩
  else none

/-- Consume the \d{1,2} of a two-digit strptime directive and return its
value. -/
def digits12 (l : List Char) : Option (Nat × List Char) :=
  match takeDigitsUpTo 2 l with
  | (d, r) => if d.isEmpty then none else some (digitsNat d, r)

/-- Consume the \d\d\d\d of the %Y directive and return its value. -/
def digits4 (l : List Char) : Option (Nat × List Char) :=
  match takeDigitsUpTo 4 l with
  | (d, r) => if d.length == 4 then some (digitsNat d, r) else none

/-- Consume a three-letter name from the given table (case-insensitive) and
return its zero-based index in the table. -/
def name3 (names : List String) (l : List Char) : Option (Nat × List Char) :=
  match take3 l with
  | none => none
  | some (w, r) =>
    match names.findIdx? (fun x => x == w) with
    | none => none
    | some i => some (i, r)

/-- The "%H:%M:%S" part of the format. -/
def parseHMS (l : List Char) : Option (Nat × Nat × Nat × List Char) :=
  match digits12 l with
  | none => none
  | some (h, l) =>
    match expectChar ':' l with
    | none => none
    | some l =>
      match digits12 l with
      | none => none
      | some (m, l) =>
        match expectChar ':' l with
        | none => none
        | some l =>
          match digits12 l with
          | none => none
          | some (s, l) => some (h, m, s, l)

/-- The "%a, %d %b %Y " prefix of the format: weekday name (validated,
value discarded), comma, day, month name, four-digit year. -/
def parseDatePart (l : List Char) : Option (Nat × Nat × Nat × List Char) :=
  match name3 weekAbbrs l with
  | none => none
  | some (_, l) =>
    match expectChar ',' l with
    | none => none
    | some l =>
      match skipWS1 l with
      | none => none
      | some l =>
        match digits12 l with
        | none => none
        | some (day, l) =>
          match skipWS1 l with
          | none => none
          | some l =>
            match name3 monthAbbrs l with
            | none => none
            | some (mi, l) =>
              match skipWS1 l with
              | none => none
              | some l =>
                match digits4 l with
                | none => none
                | some (y, l) => some (y, mi + 1, day, l)

/-- datetime.strptime(s, "%a, %d %b %Y %H:%M:%S %Z"): `none` models the
ValueError (or TypeError) burp.py catches. -/
def pyStrptimeHTTPDate (s : String) : Option PyDateTime :=
  match parseDatePart s.data with
  | none => none
  | some (y, mo, day, l) =>
    match skipWS1 l with
    | none => none
    | some l =>
      match parseHMS l with
      | none => none
      | some (h, mi, sec, l) =>
        match skipWS1 l with
        | none => none
        | some l =>
          match name3 tzNames l with
          | none => none
          | some (_, l) =>
            if l.isEmpty then mkPyDateTime y mo day h mi sec else none

/-! ## The capture-time parser (lines 110-124 of burp.py) -/

/-- The datetime.time value burp.py builds from the capture-time string. -/
structure PyTime where
  hour : Int
  minute : Int
  second : Int
deriving DecidableEq, Repr

/-- The validation of the datetime.time constructor: each field must lie in
its range or ValueError is raised (modelled as `none`). -/
def mkPyTime (h m s : Int) : Option PyTime :=
  if 0 ≤ h ∧ h ≤ 23 ∧ 0 ≤ m ∧ m ≤ 59 ∧ 0 ≤ s ∧ s ≤ 59 then some ⟨h, m, s⟩
  else none

/-- The body of the try block on lines 114-121 of burp.py after the first
split: split the clock part on ":", convert the three fields with int(),
apply the 12-hour to 24-hour adjustment, and build the time value.  `none`
models the ValueError the except clause catches. -/
def parseBurpTimeCore (rt ampm : String) : Option PyTime :=
  match (pySplitChar rt ':').mapM pyInt with
  | some [h, m, s] =>
    let h :=
      if h < 12 && ampm == "PM" then h + 12
      else if h == 12 && ampm == "AM" then 0
      else h
    mkPyTime h m s
  | _ => none

/-- The unpacking r_time, am_pm = burptime.split() on line 114; any other
number of parts raises the caught ValueError. -/
def parseBurpTime (t : String) : Option PyTime :=
  match pySplitWS t with
  | [rt, ampm] => parseBurpTimeCore rt ampm
  | _ => none

/-- Lines 110-124 of burp.py: self.time is only assigned when the raw time
string is truthy; a parse failure is logged and yields the zero sentinel
datetime.time() = 00:00:00. -/
def computeTime (t : Option String) : Option PyTime :=
  match t with
  | none => none
  | some s => if s = "" then none else some ((parseBurpTime s).getD ⟨0, 0, 0⟩)

/-! ## The data model -/

/-- A raw request sub-record as handed over by the external log reader; any
key may be absent. -/
structure ReqRaw where
  method : Option String := none
  path : Option String := none
  version : Option String := none
  headers : List (String × String) := []
  body : Option String := none
deriving DecidableEq, Repr

/-- A raw response sub-record; any key may be absent.  The status arrives
as text and is coerced with int() during processing. -/
structure RespRaw where
  version : Option String := none
  status : Option String := none
  reason : Option String := none
  headers : List (String × String) := []
  body : Option String := none
deriving DecidableEq, Repr

/-- The raw record passed to Burp.__init__; `request`/`response` are
accessed with data["request"] / data["response"], so their absence raises
KeyError, while every other key is read with .get. -/
structure RawData where
  host : Option String := none
  ip_address : Option String := none
  time : Option String := none
  request : Option ReqRaw := none
  response : Option RespRaw := none
deriving DecidableEq, Repr

/-- The normalized _request dict of a Burp object. -/
structure ReqInfo where
  method : Option String
  path : Option String
  version : Option String
  headers : List (String × String)
  body : String
deriving DecidableEq, Repr

/-- The normalized _response dict of a Burp object. -/
structure RespInfo where
  version : Option String
  status : Int
  reason : Option String
  headers : List (String × String)
  body : String
deriving DecidableEq, Repr

/-- The Burp object after construction.  The Python object also carries an
append-only `replayed` list; its elements are only ever produced by the
commented-out network-execution part of Scanner.replay, so the list is
omitted here.  When no data is supplied Python leaves _request/_response as
empty dicts; that shell is modelled with all-default sub-records (no claim
reads the accessors of a shell object). -/
structure Burp where
  index : Int
  host : Option String
  ip_address : Option String
  burptime : Option String
  datetime : Option PyDateTime
  time : Option PyTime
  request : ReqInfo
  response : RespInfo
  url : Option UrlParsed
  parameters : List (String × String)
deriving DecidableEq, Repr

/-- The field state Burp.__init__ sets up before __process runs. -/
def emptyBurp (index : Int) : Burp :=
  { index := index, host := none, ip_address := none, burptime := none,
    datetime := none, time := none,
    request := ⟨none, none, none, [], ""⟩,
    response := ⟨none, 0, none, [], ""⟩,
    url := none, parameters := [] }

/-- Modelled from the spec: the external header-parsing utility
parse_headers of gds.pub.burp.utils, which is not present under src/.  The
spec specifies only its interface: it turns the raw header mapping into a
mapping whose keys are canonicalized to title case, so lookups are
case-insensitive regardless of how headers arrived. -/
def parse_headers (raw : List (String × String)) : List (String × String) :=
  raw.map (fun kv => (pyTitle kv.1, kv.2))

/-- Python dict-style header lookup through a title-cased name, the common
body of get_request_header and get_response_header (lines 179-188 and
230-239 of burp.py): headers.get(name.title(), default). -/
def headerGet (hs : List (String × String)) (name dflt : String) : String :=
  dictGetD hs (pyTitle name) dflt

/-- Modelled from the spec: the external parameter-parsing utility
parse_parameters of gds.pub.burp.utils, not present under src/.  The spec
treats it as a black box producing a parameter mapping from the normalized
request; no claim depends on its output, so it is modelled as the constant
empty mapping. -/
def parse_parameters (_rq : ReqInfo) (_u : UrlParsed) : List (String × String) :=
  []

/-- Lines 75-81 of burp.py: the _request.update call.  Every sub-key is
read with .get, body defaulting to the empty string, so the keys are always
present afterwards (path may hold None). -/
def mkReqInfo (rq : ReqRaw) : ReqInfo :=
  { method := rq.method, path := rq.path, version := rq.version,
    headers := parse_headers rq.headers, body := rq.body.getD "" }

/-- Lines 83-89 of burp.py: the _response.update call (status already
coerced). -/
def mkRespInfo (rs : RespRaw) (st : Int) : RespInfo :=
  { version := rs.version, status := st, reason := rs.reason,
    headers := parse_headers rs.headers, body := rs.body.getD "" }

/-- int(data["response"].get("status", 0)): a missing status is int(0) = 0,
a present one goes through int() and can raise ValueError (`none`). -/
def statusInt (s : Option String) : Option Int :=
  match s with
  | none => some 0
  | some v => pyInt v

/-- Lines 91-106 of burp.py: if a Date header is present (exact-key dict
membership test), parse it via strptime inside try/except; a failure is
logged and leaves self.datetime as None. -/
def computeDatetime (hs : List (String × String)) : Option PyDateTime :=
  if dictHasKey hs "Date" then pyStrptimeHTTPDate (headerGet hs "Date" "") else none

/-- Line 126 of burp.py: urlparse(urljoin(self.host, self._request.get("path", "/"))).
The "/" default of the .get call is dead: the path key always exists after
_request.update (possibly holding None), so urljoin receives the stored
path value.  When urljoin short-circuits to None, urlparse raises
AttributeError on it. -/
def resolveUrl (host path : Option String) : Except PyErr UrlParsed :=
  match pyUrljoinOpt host path with
  | .error e => .error e
  | .ok none => .error .attributeError
  | .ok (some s) => pyUrlparse s

/-- Lines 129-136 of burp.py: if the response declares a truthy
Content-Length, int() it (ValueError propagates) and slice the response
body to it when the actual length differs. -/
def reconcileResp (r : RespInfo) : Except PyErr RespInfo :=
  let clv := headerGet r.headers "Content-Length" ""
  if clv = "" then .ok r
  else
    match pyInt clv with
    | none => .error .valueError
    | some n =>
      .ok (if (r.body.length : Int) ≠ n then { r with body := pySliceTo r.body n } else r)

/-- Lines 138-143 of burp.py: same for the request body, except that the
slice is skipped when the Content-Length header value contains "amf".  The
int() call happens before that test, so a value containing "amf" raises
ValueError first. -/
def reconcileReq (r : ReqInfo) : Except PyErr ReqInfo :=
  let clv := headerGet r.headers "Content-Length" ""
  if clv = "" then .ok r
  else
    match pyInt clv with
    | none => .error .valueError
    | some n =>
      .ok (if (r.body.length : Int) ≠ n ∧ pyIn "amf" clv = false then { r with body := pySliceTo r.body n } else r)

/-- Burp.__process (lines 68-143 of burp.py), in source order: copy host
and ip_address, normalize the request and response sub-records (int() on
the status can raise here), derive datetime and capture time (both
non-raising), resolve the url (can raise), derive parameters, then
reconcile the response body and the request body against their declared
Content-Length (int() can raise in both).  See `process` below; `keyGet`
models the subscript accesses data["request"] / data["response"], which
raise KeyError when the key is absent. -/
def keyGet {α : Type} (x : Option α) : Except PyErr α :=
  match x with
  | some v => .ok v
  | none => .error .keyError

/-- Lift the optional result of int() to the exception monad: a failed
conversion is an uncaught ValueError. -/
def intCoerce (x : Option Int) : Except PyErr Int :=
  match x with
  | some v => .ok v
  | none => .error .valueError

def process (index : Int) (d : RawData) : Except PyErr Burp :=
  (keyGet d.request).bind fun rq =>
  (keyGet d.response).bind fun rs =>
  (intCoerce (statusInt rs.status)).bind fun st =>
  (resolveUrl d.host (mkReqInfo rq).path).bind fun u =>
  (reconcileResp (mkRespInfo rs st)).bind fun sI2 =>
  (reconcileReq (mkReqInfo rq)).bind fun rI2 =>
  .ok { index := index, host := d.host, ip_address := d.ip_address,
        burptime := d.time, datetime := computeDatetime (mkRespInfo rs st).headers,
        time := computeTime d.time, request := rI2, response := sI2,
        url := some u, parameters := parse_parameters (mkReqInfo rq) u }

/-- Burp.__init__(data, index): with data=None (or any object without an
items attribute) the shell object is returned untouched; with a mapping,
__process fills the fields. -/
def construct (data : Option RawData) (index : Int) : Except PyErr Burp :=
  match data with
  | none => .ok (emptyBurp index)
  | some d => process index d

/-! ## Accessors and predicates (lines 145-333 of burp.py) -/

/-- Burp.get_request_body. -/
def Burp.get_request_body (b : Burp) : String :=
  b.request.body

/-- Burp.get_request_method (the method property). -/
def Burp.get_request_method (b : Burp) : Option String :=
  b.request.method

/-- Burp.get_request_headers (the headers property). -/
def Burp.get_request_headers (b : Burp) : List (String × String) :=
  b.request.headers

/-- Burp.get_request_header(name, default=""): dict .get through the
title-cased name. -/
def Burp.get_request_header (b : Burp) (name dflt : String) : String :=
  headerGet b.request.headers name dflt

/-- Burp.get_response_body (the response property). -/
def Burp.get_response_body (b : Burp) : String :=
  b.response.body

/-- Burp.get_response_headers (the response_headers property). -/
def Burp.get_response_headers (b : Burp) : List (String × String) :=
  b.response.headers

/-- Burp.get_response_header(name, default=""). -/
def Burp.get_response_header (b : Burp) (name dflt : String) : String :=
  headerGet b.response.headers name dflt

/-- Burp.__len__: the length of the response body. -/
def Burp.pyLen (b : Burp) : Nat :=
  b.response.body.length

/-- Burp.is_secure: self.url.scheme == "https".  On the empty shell,
self.url is None and the attribute access raises. -/
def Burp.is_secure (b : Burp) : Except PyErr Bool :=
  match b.url with
  | none => .error .attributeError
  | some u => .ok (u.scheme == "https")

/-- Burp.is_get: self.method == "GET" (None compares unequal). -/
def Burp.is_get (b : Burp) : Bool :=
  b.request.method == some "GET"

/-- Burp.is_post. -/
def Burp.is_post (b : Burp) : Bool :=
  b.request.method == some "POST"

/-- Burp.is_put. -/
def Burp.is_put (b : Burp) : Bool :=
  b.request.method == some "PUT"

/-- Burp.is_delete. -/
def Burp.is_delete (b : Burp) : Bool :=
  b.request.method == some "DELETE"

/-- Burp.is_options. -/
def Burp.is_options (b : Burp) : Bool :=
  b.request.method == some "OPTIONS"

/-- Burp.is_trace. -/
def Burp.is_trace (b : Burp) : Bool :=
  b.request.method == some "TRACE"

/-! ## Scanner.replay (lines 343-364 of burp.py)

Only the override-defaulting and the Content-Length recomputation are
executed code; the network call and the append to replayed are commented
out in the source. -/

/-- The effective request spec Scanner.replay assembles. -/
structure ReplayEff where
  url : String
  method : Option String
  body : String
  headers : List (String × String)
deriving DecidableEq, Repr

/-- Lines 354-361: each field is the override when supplied, otherwise the
value taken from the record; the url default re-serializes the parsed url
via geturl() (AttributeError on a shell record whose url is None), and the
headers default is copy.deepcopy of the original headers, which on
immutable values is the identity. -/
def replayAssemble (request : Burp) (urlO methodO bodyO : Option String)
    (headersO : Option (List (String × String))) : Except PyErr ReplayEff :=
  let method :=
    match methodO with
    | some m => some m
    | none => request.get_request_method
  let body :=
    match bodyO with
    | some b => b
    | none => request.get_request_body
  let headers :=
    match headersO with
    | some h => h
    | none => request.get_request_headers
  match urlO with
  | some u => .ok ⟨u, method, body, headers⟩
  | none =>
    match request.url with
    | some pu => .ok ⟨pu.geturl, method, body, headers⟩
    | none => .error .attributeError

/-- Lines 363-364: when the effective method is exactly "POST" and the
effective body is truthy, headers.update sets Content-Length to
str(len(body)). -/
def replayFinalize (e : ReplayEff) : ReplayEff :=
  if e.method = some "POST" ∧ e.body ≠ "" then
    { e with headers := dictSet e.headers "Content-Length" (toString e.body.length) }
  else e

/-- Scanner.replay(request, url, method, body, headers), restricted to its
executed part: assemble the effective spec, then recompute Content-Length
for a non-empty POST body. -/
def Scanner.replay (request : Burp) (urlO methodO bodyO : Option String)
    (headersO : Option (List (String × String))) : Except PyErr ReplayEff :=
  (replayAssemble request urlO methodO bodyO headersO).map replayFinalize

/-! ## Structural lemmas about the embedded definitions -/

theorem except_bind_ok {α β : Type} {x : Except PyErr α} {f : α → Except PyErr β} {b : β} :
    x.bind f = .ok b ↔ ∃ a, x = .ok a ∧ f a = .ok b := by
  cases x <;> simp [Except.bind]

theorem except_isOk_iff {α : Type} {x : Except PyErr α} :
    x.isOk = true ↔ ∃ a, x = .ok a := by
  cases x <;> simp [Except.isOk, Except.toBool]

theorem keyGet_ok {α : Type} {x : Option α} {a : α} :
    keyGet x = .ok a ↔ x = some a := by
  cases x <;> simp [keyGet]

theorem intCoerce_ok {x : Option Int} {a : Int} :
    intCoerce x = .ok a ↔ x = some a := by
  cases x <;> simp [intCoerce]

theorem pySliceTo_ofNat (s : String) (n : Nat) :
    pySliceTo s (n : Int) = String.mk (s.data.take n) := by
  unfold pySliceTo
  rw [if_neg (by omega), Int.toNat_ofNat]

theorem reconcileResp_ok_fields {r r2 : RespInfo} (h : reconcileResp r = .ok r2) :
    r2.version = r.version ∧ r2.status = r.status ∧ r2.reason = r.reason ∧
    r2.headers = r.headers := by
  simp only [reconcileResp] at h
  split at h
  · cases h
    exact ⟨rfl, rfl, rfl, rfl⟩
  · split at h
    · exact Except.noConfusion h
    · split at h <;> cases h <;> exact ⟨rfl, rfl, rfl, rfl⟩

theorem reconcileResp_skip {r r2 : RespInfo}
    (h : reconcileResp r = .ok r2)
    (hcl : headerGet r.headers "Content-Length" "" = "") :
    r2 = r := by
  simp only [reconcileResp] at h
  rw [if_pos hcl] at h
  cases h
  rfl

theorem reconcileResp_body {r r2 : RespInfo} {n : Int}
    (h : reconcileResp r = .ok r2)
    (hne : headerGet r.headers "Content-Length" "" ≠ "")
    (hn : pyInt (headerGet r.headers "Content-Length" "") = some n) :
    r2.body = if (r.body.length : Int) = n then r.body else pySliceTo r.body n := by
  simp only [reconcileResp] at h
  rw [if_neg hne] at h
  split at h
  · exact Except.noConfusion h
  · next m hm =>
    rw [hn] at hm
    injection hm with hm
    subst hm
    split at h <;> cases h
    · next hcond => rw [if_neg hcond]
    · next hcond =>
      rw [if_pos (show (r.body.length : Int) = n by omega)]

theorem reconcileResp_isOk_congr {r r2 : RespInfo}
    (hcl : headerGet r.headers "Content-Length" "" = headerGet r2.headers "Content-Length" "") :
    (reconcileResp r).isOk = (reconcileResp r2).isOk := by
  simp only [reconcileResp]
  rw [← hcl]
  by_cases hc : headerGet r.headers "Content-Length" "" = ""
  · simp [hc, Except.isOk, Except.toBool]
  · rw [if_neg hc, if_neg hc]
    cases hpi : pyInt (headerGet r.headers "Content-Length" "") <;>
      simp [Except.isOk, Except.toBool]

theorem reconcileReq_ok_fields {r r2 : ReqInfo} (h : reconcileReq r = .ok r2) :
    r2.method = r.method ∧ r2.path = r.path ∧ r2.version = r.version ∧
    r2.headers = r.headers := by
  simp only [reconcileReq] at h
  split at h
  · cases h
    exact ⟨rfl, rfl, rfl, rfl⟩
  · split at h
    · exact Except.noConfusion h
    · split at h <;> cases h <;> exact ⟨rfl, rfl, rfl, rfl⟩

theorem reconcileReq_skip {r r2 : ReqInfo}
    (h : reconcileReq r = .ok r2)
    (hcl : headerGet r.headers "Content-Length" "" = "") :
    r2 = r := by
  simp only [reconcileReq] at h
  rw [if_pos hcl] at h
  cases h
  rfl

theorem reconcileReq_body {r r2 : ReqInfo} {n : Int}
    (h : reconcileReq r = .ok r2)
    (hne : headerGet r.headers "Content-Length" "" ≠ "")
    (hn : pyInt (headerGet r.headers "Content-Length" "") = some n) :
    r2.body =
      if (r.body.length : Int) ≠ n ∧ pyIn "amf" (headerGet r.headers "Content-Length" "") = false
      then pySliceTo r.body n else r.body := by
  simp only [reconcileReq] at h
  rw [if_neg hne] at h
  split at h
  · exact Except.noConfusion h
  · next m hm =>
    rw [hn] at hm
    injection hm with hm
    subst hm
    split at h <;> cases h
    · next hcond => rw [if_pos hcond]
    · next hcond => rw [if_neg hcond]

theorem reconcileReq_isOk_congr {r r2 : ReqInfo}
    (hcl : headerGet r.headers "Content-Length" "" = headerGet r2.headers "Content-Length" "") :
    (reconcileReq r).isOk = (reconcileReq r2).isOk := by
  simp only [reconcileReq]
  rw [← hcl]
  by_cases hc : headerGet r.headers "Content-Length" "" = ""
  · simp [hc, Except.isOk, Except.toBool]
  · rw [if_neg hc, if_neg hc]
    cases hpi : pyInt (headerGet r.headers "Content-Length" "") <;>
      simp [Except.isOk, Except.toBool]

/-- Elimination form of a successful __process run: the raw record must
contain request and response sub-records, the status and the url resolution
must go through, both reconciliations must go through, and the resulting
object is assembled from those pieces. -/
theorem process_ok_elim {i : Int} {d : RawData} {b : Burp} (h : process i d = .ok b) :
    ∃ rq rs st u sI2 rI2,
      d.request = some rq ∧ d.response = some rs ∧
      statusInt rs.status = some st ∧
      resolveUrl d.host rq.path = .ok u ∧
      reconcileResp (mkRespInfo rs st) = .ok sI2 ∧
      reconcileReq (mkReqInfo rq) = .ok rI2 ∧
      b = { index := i, host := d.host, ip_address := d.ip_address,
            burptime := d.time,
            datetime := computeDatetime (parse_headers rs.headers),
            time := computeTime d.time,
            request := rI2, response := sI2, url := some u,
            parameters := parse_parameters (mkReqInfo rq) u } := by
  unfold process at h
  rw [except_bind_ok] at h
  obtain ⟨rq, hrq, h⟩ := h
  rw [except_bind_ok] at h
  obtain ⟨rs, hrs, h⟩ := h
  rw [except_bind_ok] at h
  obtain ⟨st, hst, h⟩ := h
  rw [except_bind_ok] at h
  obtain ⟨u, hu, h⟩ := h
  rw [except_bind_ok] at h
  obtain ⟨sI2, hsI, h⟩ := h
  rw [except_bind_ok] at h
  obtain ⟨rI2, hrI, h⟩ := h
  cases h
  exact ⟨rq, rs, st, u, sI2, rI2, keyGet_ok.mp hrq, keyGet_ok.mp hrs,
    intCoerce_ok.mp hst, hu, hsI, hrI, rfl⟩

/-- Success characterization of __process: construction succeeds exactly
when the request/response keys are present, int() succeeds on the status,
the url resolution does not raise, and int() succeeds on both declared
Content-Length values (when truthy).  Note that neither the Date header
value nor the capture-time string occurs in the condition. -/
theorem process_isOk_iff {i : Int} {d : RawData} :
    (process i d).isOk = true ↔
      ∃ rq rs st u sI2 rI2,
        d.request = some rq ∧ d.response = some rs ∧
        statusInt rs.status = some st ∧
        resolveUrl d.host rq.path = .ok u ∧
        reconcileResp (mkRespInfo rs st) = .ok sI2 ∧
        reconcileReq (mkReqInfo rq) = .ok rI2 := by
  constructor
  · intro h
    obtain ⟨b, hb⟩ := except_isOk_iff.mp h
    obtain ⟨rq, rs, st, u, sI2, rI2, h1, h2, h3, h4, h5, h6, _⟩ := process_ok_elim hb
    exact ⟨rq, rs, st, u, sI2, rI2, h1, h2, h3, h4, h5, h6⟩
  · rintro ⟨rq, rs, st, u, sI2, rI2, h1, h2, h3, h4, h5, h6⟩
    unfold process
    rw [h1, h2]
    simp only [keyGet, Except.bind]
    rw [h3]
    simp only [intCoerce, Except.bind]
    have hpath : (mkReqInfo rq).path = rq.path := rfl
    rw [hpath, h4]
    simp only [Except.bind]
    rw [h5]
    simp only [Except.bind]
    rw [h6]
    simp [Except.bind, Except.isOk, Except.toBool]

/-! ## The claims -/

/-- C1: for every constructed TransactionRecord whose response headers
declare a Content-Length value L (here: a value int() reads as the natural
number n) differing from the actual length of the normalized response body,
the body is truncated to exactly L, and when the raw body is shorter than L
it is left unchanged (truncation only, never extension): the normalized
body is always the n-prefix of the raw body, so its length is
min n (raw length). -/
theorem c1_response_truncation
    (d : RawData) (rs : RespRaw) (b : Burp) (n : Nat)
    (hrs : d.response = some rs)
    (hne : headerGet (parse_headers rs.headers) "Content-Length" "" ≠ "")
    (hn : pyInt (headerGet (parse_headers rs.headers) "Content-Length" "") = some (n : Int))
    (hb : construct (some d) 0 = .ok b) :
    b.response.body = String.mk ((rs.body.getD "").data.take n) ∧
    b.response.body.length = min n (rs.body.getD "").length ∧
    ((rs.body.getD "").length < n → b.response.body = rs.body.getD "") := by
  have hb2 : process 0 d = .ok b := hb
  obtain ⟨rq, rs2, st, u, sI2, rI2, h1, h2, h3, h4, h5, h6, hbeq⟩ := process_ok_elim hb2
  rw [hrs] at h2
  injection h2 with h2
  subst h2
  have hhdr : (mkRespInfo rs st).headers = parse_headers rs.headers := rfl
  have hbody : (mkRespInfo rs st).body = rs.body.getD "" := rfl
  have hbb := reconcileResp_body h5 (n := (n : Int))
      (by rw [hhdr]; exact hne) (by rw [hhdr]; exact hn)
  rw [hbody] at hbb
  have hbresp : b.response = sI2 := by rw [hbeq]
  have hmain : b.response.body = String.mk ((rs.body.getD "").data.take n) := by
    rw [hbresp, hbb]
    by_cases hlen : ((rs.body.getD "").length : Int) = (n : Int)
    · rw [if_pos hlen]
      have hlen2 : (rs.body.getD "").data.length = n := by
        have := hlen
        simp only [String.length] at this
        exact_mod_cast this
      rw [← hlen2, List.take_length]
    · rw [if_neg hlen, pySliceTo_ofNat]
  refine ⟨hmain, ?_, ?_⟩
  · rw [hmain]
    exact List.length_take n (rs.body.getD "").data
  · intro hlt
    rw [hmain]
    have htk : List.take n (rs.body.getD "").data = (rs.body.getD "").data :=
      List.take_of_length_le (Nat.le_of_lt hlt)
    rw [htk]

/-- Concrete response record for the c1 witness: Content-Length 5, raw
body of 8 bytes. -/
def rsC1 : RespRaw :=
  { headers := [("content-length", "5")], body := some "abcdefgh" }

/-- Concrete raw record for the c1 witness. -/
def rawC1 : RawData :=
  { host := some "http://example.com",
    request := some { path := some "/a" },
    response := some rsC1 }

/-- The record construction builds from `rawC1`. -/
def recC1 : Burp :=
  (construct (some rawC1) 0).toOption.getD (emptyBurp 0)

/-- Witness for c1: a response with Content-Length 5 and a raw 8-byte body
ends with a body of length exactly 5. -/
theorem c1_response_truncation_witness :
    recC1.response.body = "abcde" := by
  have hb : construct (some rawC1) 0 = .ok recC1 := rfl
  have h := c1_response_truncation rawC1 rsC1 recC1 5 rfl (by decide) (by decide) hb
  exact h.1.trans (by decide)

/-- C4: for every capture-time string of the form "hh:mm:ss AM|PM" (split
into a clock part and marker by whitespace, three int()-readable fields in
the 12-hour ranges), construction derives the 24-hour time-of-day by the
rule: hour 12 with "AM" maps to 0; hour < 12 with "PM" maps to hour + 12;
otherwise the hour is unchanged. -/
theorem c4_capture_time_conversion
    (d : RawData) (b : Burp) (t rt ampm : String) (h m s : Int)
    (hb : construct (some d) 0 = .ok b)
    (ht : d.time = some t)
    (hsplit : pySplitWS t = [rt, ampm])
    (hints : (pySplitChar rt ':').mapM pyInt = some [h, m, s])
    (hampm : ampm = "AM" ∨ ampm = "PM")
    (hh1 : 1 ≤ h) (hh2 : h ≤ 12) (hm1 : 0 ≤ m) (hm2 : m ≤ 59)
    (hs1 : 0 ≤ s) (hs2 : s ≤ 59) :
    b.time = some ⟨if h = 12 ∧ ampm = "AM" then 0
                   else if h < 12 ∧ ampm = "PM" then h + 12 else h, m, s⟩ := by
  have hb2 : process 0 d = .ok b := hb
  obtain ⟨rq, rs, st, u, sI2, rI2, h1, h2, h3, h4, h5, h6, hbeq⟩ := process_ok_elim hb2
  have hbt : b.time = computeTime d.time := by rw [hbeq]
  rw [ht] at hbt
  have htne : ¬ (t = "") := by
    intro he
    rw [he] at hsplit
    simp [pySplitWS, pySplitWSAux] at hsplit
  have hct : computeTime (some t)
      = if t = "" then none else some ((parseBurpTime t).getD ⟨0, 0, 0⟩) := rfl
  rw [hct, if_neg htne] at hbt
  have hpt1 : parseBurpTime t = parseBurpTimeCore rt ampm := by
    unfold parseBurpTime
    rw [hsplit]
  have hpt2 : parseBurpTimeCore rt ampm =
      mkPyTime (if h < 12 && ampm == "PM" then h + 12
                else if h == 12 && ampm == "AM" then 0 else h) m s := by
    unfold parseBurpTimeCore
    rw [hints]
  have hpt := hpt1.trans hpt2
  have hcode : (if h < 12 && ampm == "PM" then h + 12
                else if h == 12 && ampm == "AM" then 0 else h)
      = (if h = 12 ∧ ampm = "AM" then 0 else if h < 12 ∧ ampm = "PM" then h + 12 else h) := by
    rcases hampm with ha | ha <;> subst ha <;>
      simp [beq_iff_eq, decide_eq_true_eq]
  have hval : mkPyTime (if h = 12 ∧ ampm = "AM" then 0
                        else if h < 12 ∧ ampm = "PM" then h + 12 else h) m s
      = some ⟨if h = 12 ∧ ampm = "AM" then 0
              else if h < 12 ∧ ampm = "PM" then h + 12 else h, m, s⟩ := by
    split_ifs with hc1 hc2
    · simp only [mkPyTime]
      rw [if_pos ⟨by omega, by omega, hm1, hm2, hs1, hs2⟩]
    · obtain ⟨hlt, -⟩ := hc2
      simp only [mkPyTime]
      rw [if_pos ⟨by omega, by omega, hm1, hm2, hs1, hs2⟩]
    · simp only [mkPyTime]
      rw [if_pos ⟨by omega, by omega, hm1, hm2, hs1, hs2⟩]
  rw [hpt, hcode, hval, Option.getD_some] at hbt
  exact hbt

/-- Concrete raw record for the c4 witness: capture time "01:15:30 PM". -/
def rawC4 : RawData :=
  { host := some "http://example.com", time := some "01:15:30 PM",
    request := some { path := some "/" }, response := some {} }

/-- The record construction builds from `rawC4`. -/
def recC4 : Burp :=
  (construct (some rawC4) 0).toOption.getD (emptyBurp 0)

/-- Witness for c4: "01:15:30 PM" parses to the time-of-day 13:15:30. -/
theorem c4_capture_time_conversion_witness :
    recC4.time = some ⟨13, 15, 30⟩ := by
  have hb : construct (some rawC4) 0 = .ok recC4 := rfl
  have h := c4_capture_time_conversion rawC4 recC4 "01:15:30 PM" "01:15:30" "PM" 1 15 30
    hb rfl (by decide) (by decide) (Or.inr rfl)
    (by decide) (by decide) (by decide) (by decide) (by decide) (by decide)
  exact h.trans (by decide)

theorem bool_eq_of_iff {a b : Bool} (h : a = true ↔ b = true) : a = b := by
  cases a <;> cases b <;> simp_all

/-- C5: a parse failure of the response Date header or of the capture-time
string never aborts construction: on every successfully constructed record,
an strptime-unparsable Date header value yields datetime None and a
malformed truthy capture-time string yields the zero sentinel 00:00:00;
moreover whether construction succeeds at all is independent of the
capture-time entry and of any change to the raw response headers that
preserves the declared Content-Length (in particular of the Date value). -/
theorem c5_parse_failures_nonfatal (d : RawData) :
    (∀ b rs, construct (some d) 0 = .ok b → d.response = some rs →
        dictHasKey (parse_headers rs.headers) "Date" = true →
        pyStrptimeHTTPDate (headerGet (parse_headers rs.headers) "Date" "") = none →
        b.datetime = none) ∧
    (∀ b t, construct (some d) 0 = .ok b → d.time = some t → ¬ (t = "") →
        parseBurpTime t = none → b.time = some ⟨0, 0, 0⟩) ∧
    (∀ t2, (construct (some { d with time := t2 }) 0).isOk = (construct (some d) 0).isOk) ∧
    (∀ rs hs2, d.response = some rs →
        headerGet (parse_headers hs2) "Content-Length" ""
          = headerGet (parse_headers rs.headers) "Content-Length" "" →
        (construct (some { d with response := some { rs with headers := hs2 } }) 0).isOk
          = (construct (some d) 0).isOk) := by
  refine ⟨?_, ?_, ?_, ?_⟩
  · intro b rs hb hrs hhk hfail
    have hb2 : process 0 d = .ok b := hb
    obtain ⟨rq, rs2, st, u, sI2, rI2, h1, h2, h3, h4, h5, h6, hbeq⟩ := process_ok_elim hb2
    rw [hrs] at h2
    injection h2 with h2
    subst h2
    have hdt : b.datetime = computeDatetime (parse_headers rs.headers) := by rw [hbeq]
    rw [hdt]
    simp only [computeDatetime]
    rw [if_pos hhk]
    exact hfail
  · intro b t hb ht htne hfail
    have hb2 : process 0 d = .ok b := hb
    obtain ⟨rq, rs2, st, u, sI2, rI2, h1, h2, h3, h4, h5, h6, hbeq⟩ := process_ok_elim hb2
    have hbt : b.time = computeTime d.time := by rw [hbeq]
    rw [ht] at hbt
    have hct : computeTime (some t)
        = if t = "" then none else some ((parseBurpTime t).getD ⟨0, 0, 0⟩) := rfl
    rw [hct, if_neg htne, hfail, Option.getD_none] at hbt
    exact hbt
  · intro t2
    show (process 0 { d with time := t2 }).isOk = (process 0 d).isOk
    apply bool_eq_of_iff
    rw [process_isOk_iff, process_isOk_iff]
  · intro rs hs2 hrs hcl
    show (process 0 { d with response := some { rs with headers := hs2 } }).isOk
        = (process 0 d).isOk
    apply bool_eq_of_iff
    rw [process_isOk_iff, process_isOk_iff]
    constructor
    · rintro ⟨rq, rs3, st, u, sI2, rI2, h1, h2, h3, h4, h5, h6⟩
      have h2b : some { rs with headers := hs2 } = some rs3 := h2
      injection h2b with h2b
      subst h2b
      have hcongr : (reconcileResp (mkRespInfo rs st)).isOk
          = (reconcileResp (mkRespInfo { rs with headers := hs2 } st)).isOk :=
        reconcileResp_isOk_congr hcl.symm
      have hok : (reconcileResp (mkRespInfo rs st)).isOk = true := by
        rw [hcongr, h5]
        rfl
      obtain ⟨sI3, h5b⟩ := except_isOk_iff.mp hok
      exact ⟨rq, rs, st, u, sI3, rI2, h1, hrs, h3, h4, h5b, h6⟩
    · rintro ⟨rq, rs3, st, u, sI2, rI2, h1, h2, h3, h4, h5, h6⟩
      rw [hrs] at h2
      injection h2 with h2
      subst h2
      have hcongr : (reconcileResp (mkRespInfo { rs with headers := hs2 } st)).isOk
          = (reconcileResp (mkRespInfo rs st)).isOk :=
        reconcileResp_isOk_congr hcl
      have hok : (reconcileResp (mkRespInfo { rs with headers := hs2 } st)).isOk = true := by
        rw [hcongr, h5]
        rfl
      obtain ⟨sI3, h5b⟩ := except_isOk_iff.mp hok
      exact ⟨rq, { rs with headers := hs2 }, st, u, sI3, rI2, h1, rfl, h3, h4, h5b, h6⟩

/-- Concrete raw record for the c5 witness: unparsable Date header and
malformed capture time. -/
def rawC5 : RawData :=
  { host := some "http://example.com", time := some "bogus-time",
    request := some { path := some "/" },
    response := some { headers := [("Date", "garbage")] } }

/-- The record construction builds from `rawC5`. -/
def recC5 : Burp :=
  (construct (some rawC5) 0).toOption.getD (emptyBurp 0)

/-- Witness for c5: with Date header "garbage" and capture time
"bogus-time", construction succeeds, the derived datetime is absent and the
derived time-of-day is the zero sentinel. -/
theorem c5_parse_failures_nonfatal_witness :
    recC5.datetime = none ∧ recC5.time = some ⟨0, 0, 0⟩ := by
  have hb : construct (some rawC5) 0 = .ok recC5 := rfl
  have h := c5_parse_failures_nonfatal rawC5
  exact ⟨h.1 recC5 { headers := [("Date", "garbage")] } hb rfl (by decide) (by decide),
    h.2.1 recC5 "bogus-time" hb rfl (by decide) (by decide)⟩

/-- C9: on every constructed record, is_secure is true exactly when the
resolved URL scheme is the string "https", and each is-method predicate is
true exactly when the stored request method (copied verbatim from the raw
record) equals the corresponding uppercase verb — no case normalization is
applied at construction or predicate time. -/
theorem c9_predicates
    (d : RawData) (b : Burp) (rq : ReqRaw)
    (hb : construct (some d) 0 = .ok b) (hrq : d.request = some rq) :
    (∃ u, b.url = some u ∧ b.is_secure = .ok (u.scheme == "https")) ∧
    b.is_get = (rq.method == some "GET") ∧
    b.is_post = (rq.method == some "POST") ∧
    b.is_put = (rq.method == some "PUT") ∧
    b.is_delete = (rq.method == some "DELETE") ∧
    b.is_options = (rq.method == some "OPTIONS") ∧
    b.is_trace = (rq.method == some "TRACE") := by
  have hb2 : process 0 d = .ok b := hb
  obtain ⟨rq2, rs, st, u, sI2, rI2, h1, h2, h3, h4, h5, h6, hbeq⟩ := process_ok_elim hb2
  rw [hrq] at h1
  injection h1 with h1
  subst h1
  have hm : b.request.method = rq.method := by
    have hfields := reconcileReq_ok_fields h6
    rw [hbeq]
    exact hfields.1
  have hurl : b.url = some u := by rw [hbeq]
  refine ⟨⟨u, hurl, ?_⟩, ?_, ?_, ?_, ?_, ?_, ?_⟩
  · unfold Burp.is_secure
    rw [hurl]
  · simp only [Burp.is_get]
    rw [hm]
  · simp only [Burp.is_post]
    rw [hm]
  · simp only [Burp.is_put]
    rw [hm]
  · simp only [Burp.is_delete]
    rw [hm]
  · simp only [Burp.is_options]
    rw [hm]
  · simp only [Burp.is_trace]
    rw [hm]

/-- Concrete raw record for the c9 witness: https host, lowercase method
"get". -/
def rawC9 : RawData :=
  { host := some "https://example.com",
    request := some { method := some "get", path := some "/x" },
    response := some {} }

/-- The record construction builds from `rawC9`. -/
def recC9 : Burp :=
  (construct (some rawC9) 0).toOption.getD (emptyBurp 0)

/-- Witness for c9: the https record is secure, and the lowercase method
"get" does not satisfy is_get (exact match, no case normalization). -/
theorem c9_predicates_witness :
    recC9.is_secure = .ok true ∧ recC9.is_get = false := by
  have hb : construct (some rawC9) 0 = .ok recC9 := rfl
  obtain ⟨⟨u, hu, hsec⟩, hget, -⟩ :=
    c9_predicates rawC9 recC9 { method := some "get", path := some "/x" } hb rfl
  constructor
  · have hc : recC9.url = some ⟨"https", "example.com", "/x", "", "", ""⟩ := by decide
    rw [hu] at hc
    injection hc with hc
    rw [hsec, hc]
    rfl
  · rw [hget]
    decide

/-- C10: the single-header accessors look the supplied name up through its
title-cased form — any casing of the name that title-cases to a stored key
finds that key — and return the empty string, without raising, when no such
header exists and no explicit default is given. -/
theorem c10_header_accessors (b : Burp) (name : String) :
    (∀ v, dictLookup b.request.headers (pyTitle name) = some v →
        b.get_request_header name "" = v) ∧
    (dictLookup b.request.headers (pyTitle name) = none →
        b.get_request_header name "" = "") ∧
    (∀ v, dictLookup b.response.headers (pyTitle name) = some v →
        b.get_response_header name "" = v) ∧
    (dictLookup b.response.headers (pyTitle name) = none →
        b.get_response_header name "" = "") := by
  refine ⟨?_, ?_, ?_, ?_⟩
  · intro v hv
    simp only [Burp.get_request_header, headerGet, dictGetD]
    rw [hv]
    rfl
  · intro hv
    simp only [Burp.get_request_header, headerGet, dictGetD]
    rw [hv]
    rfl
  · intro v hv
    simp only [Burp.get_response_header, headerGet, dictGetD]
    rw [hv]
    rfl
  · intro hv
    simp only [Burp.get_response_header, headerGet, dictGetD]
    rw [hv]
    rfl

/-- A record with one stored request header, for the c10 witness. -/
def recC10 : Burp :=
  { emptyBurp 0 with
      request := ⟨none, none, none, [("Content-Length", "7")], ""⟩,
      response := ⟨none, 0, none, [("Server", "nginx")], ""⟩ }

/-- Witness for c10: the mixed-cased name "content-LENGTH" finds the stored
"Content-Length" entry, and a missing header yields the empty string. -/
theorem c10_header_accessors_witness :
    recC10.get_request_header "content-LENGTH" "" = "7" ∧
    recC10.get_response_header "X-Missing" "" = "" := by
  refine ⟨(c10_header_accessors recC10 "content-LENGTH").1 "7" (by decide), ?_⟩
  exact (c10_header_accessors recC10 "X-Missing").2.2.2 (by decide)

theorem except_map_ok {α β : Type} {x : Except PyErr α} {f : α → β} {b : β} :
    x.map f = .ok b ↔ ∃ a, x = .ok a ∧ f a = b := by
  cases x <;> simp [Except.map]

theorem dictLookup_dictSet (m : List (String × String)) (k v : String) :
    dictLookup (dictSet m k v) k = some v := by
  induction m with
  | nil => simp [dictSet, dictLookup]
  | cons kv rest ih =>
    obtain ⟨k0, v0⟩ := kv
    by_cases hk : (k0 == k) = true
    · simp [dictSet, dictLookup, hk]
    · simp [dictSet, dictLookup, hk, ih]

theorem replayAssemble_ok_fields {request : Burp} {urlO methodO bodyO : Option String}
    {headersO : Option (List (String × String))} {e : ReplayEff}
    (h : replayAssemble request urlO methodO bodyO headersO = .ok e) :
    e.method = (methodO <|> request.request.method) ∧
    e.body = bodyO.getD request.request.body ∧
    e.headers = headersO.getD request.request.headers := by
  unfold replayAssemble at h
  cases urlO with
  | some uu =>
    cases methodO <;> cases bodyO <;> cases headersO <;>
      (cases h; exact ⟨rfl, rfl, rfl⟩)
  | none =>
    cases hu : request.url with
    | some pu =>
      rw [hu] at h
      cases methodO <;> cases bodyO <;> cases headersO <;>
        (cases h; exact ⟨rfl, rfl, rfl⟩)
    | none =>
      rw [hu] at h
      exact Except.noConfusion h

/-- C7: the replay computation assembles an effective request spec whose
url, method, body and headers are the override when one is supplied and the
record original otherwise; the headers default is a (deep) copy of the
original request headers — on the immutable values of this embedding the
copy is the identity — and the full replay result is that spec passed
through the Content-Length finalization step. -/
theorem c7_replay_effective_fields
    (request : Burp) (pu : UrlParsed)
    (urlO methodO bodyO : Option String) (headersO : Option (List (String × String)))
    (hurl : request.url = some pu) :
    ∃ e, replayAssemble request urlO methodO bodyO headersO = .ok e ∧
      e.url = urlO.getD pu.geturl ∧
      e.method = (methodO <|> request.request.method) ∧
      e.body = bodyO.getD request.request.body ∧
      e.headers = headersO.getD request.request.headers ∧
      Scanner.replay request urlO methodO bodyO headersO = .ok (replayFinalize e) := by
  have hassem : replayAssemble request urlO methodO bodyO headersO
      = .ok ⟨urlO.getD pu.geturl, methodO <|> request.request.method,
             bodyO.getD request.request.body, headersO.getD request.request.headers⟩ := by
    unfold replayAssemble
    cases urlO with
    | some uu => cases methodO <;> cases bodyO <;> cases headersO <;> rfl
    | none =>
      rw [hurl]
      cases methodO <;> cases bodyO <;> cases headersO <;> rfl
  refine ⟨_, hassem, rfl, rfl, rfl, rfl, ?_⟩
  unfold Scanner.replay
  rw [hassem]
  rfl

/-- A record with concrete normalized state for the c7 witness. -/
def recC7 : Burp :=
  { emptyBurp 0 with
      request := ⟨some "GET", some "/a", none, [("Host", "example.com")], "xyz"⟩,
      url := some ⟨"http", "example.com", "/a", "", "", ""⟩ }

/-- Witness for c7: replay with no overrides reproduces the original url,
method, body and headers exactly. -/
theorem c7_replay_effective_fields_witness :
    Scanner.replay recC7 none none none none
      = .ok ⟨"http://example.com/a", some "GET", "xyz", [("Host", "example.com")]⟩ := by
  obtain ⟨e, he, hu, hm, hbdy, hh, hr⟩ :=
    c7_replay_effective_fields recC7 ⟨"http", "example.com", "/a", "", "", ""⟩
      none none none none rfl
  have hconc : replayAssemble recC7 none none none none
      = .ok ⟨"http://example.com/a", some "GET", "xyz", [("Host", "example.com")]⟩ := rfl
  rw [he] at hconc
  injection hconc with hconc
  subst hconc
  rw [hr]
  rfl

/-- C8: in the replay result, when the effective method is exactly "POST"
and the effective body is non-empty, the effective headers carry a
Content-Length entry equal to the length of the effective body, overwriting
any pre-existing entry; otherwise the headers are exactly the effective
base headers (override or original), with no entry added. -/
theorem c8_replay_content_length
    (request : Burp) (urlO methodO bodyO : Option String)
    (headersO : Option (List (String × String))) (r : ReplayEff)
    (hr : Scanner.replay request urlO methodO bodyO headersO = .ok r) :
    (r.method = some "POST" ∧ r.body ≠ "" →
        r.headers = dictSet (headersO.getD request.request.headers) "Content-Length"
            (toString r.body.length) ∧
        dictLookup r.headers "Content-Length" = some (toString r.body.length)) ∧
    (¬ (r.method = some "POST" ∧ r.body ≠ "") →
        r.headers = headersO.getD request.request.headers) := by
  unfold Scanner.replay at hr
  obtain ⟨e, he, hfe⟩ := except_map_ok.mp hr
  obtain ⟨hm, hbdy, hhd⟩ := replayAssemble_ok_fields he
  subst hfe
  have hmeth : (replayFinalize e).method = e.method := by
    unfold replayFinalize
    split <;> rfl
  have hbody : (replayFinalize e).body = e.body := by
    unfold replayFinalize
    split <;> rfl
  constructor
  · rintro ⟨hpost, hbne⟩
    rw [hmeth] at hpost
    rw [hbody] at hbne
    have hcond : e.method = some "POST" ∧ e.body ≠ "" := ⟨hpost, hbne⟩
    have hfh : (replayFinalize e).headers
        = dictSet e.headers "Content-Length" (toString e.body.length) := by
      unfold replayFinalize
      rw [if_pos hcond]
    constructor
    · rw [hbody, hfh, hhd]
    · rw [hbody, hfh]
      exact dictLookup_dictSet e.headers "Content-Length" (toString e.body.length)
  · intro hnot
    have hcond : ¬ (e.method = some "POST" ∧ e.body ≠ "") := by
      intro hc
      exact hnot ⟨by rw [hmeth]; exact hc.1, by rw [hbody]; exact hc.2⟩
    have hfin : replayFinalize e = e := by
      unfold replayFinalize
      rw [if_neg hcond]
    rw [hfin, ← hhd]

/-- A record for the c8 witness. -/
def recC8 : Burp :=
  { emptyBurp 0 with
      request := ⟨some "GET", some "/", none, [], ""⟩,
      url := some ⟨"http", "h", "/", "", "", ""⟩ }

/-- The replay result of the c8 witness: method override "POST", 3-byte
body override, headers override with a stale Content-Length of 99. -/
def repC8 : ReplayEff :=
  (Scanner.replay recC8 none (some "POST") (some "xyz")
    (some [("Content-Length", "99"), ("A", "b")])).toOption.getD ⟨"", none, "", []⟩

/-- Witness for c8: a POST body of length 3 forces Content-Length "3",
overwriting the pre-existing value "99". -/
theorem c8_replay_content_length_witness :
    dictLookup repC8.headers "Content-Length" = some "3" := by
  have hr : Scanner.replay recC8 none (some "POST") (some "xyz")
      (some [("Content-Length", "99"), ("A", "b")]) = .ok repC8 := rfl
  have h := c8_replay_content_length recC8 none (some "POST") (some "xyz")
    (some [("Content-Length", "99"), ("A", "b")]) repC8 hr
  have h2 := (h.1 ⟨by decide, by decide⟩).2
  exact h2.trans (by decide)

/-! ## The code-bug claims C2, C3 and C6 -/

theorem digitsToNat_isDigit {l : List Char} {acc k : Nat}
    (h : digitsToNat l acc = some k) : ∀ c ∈ l, c.isDigit = true := by
  induction l generalizing acc with
  | nil =>
    intro c hc
    exact absurd hc (List.not_mem_nil c)
  | cons c0 cs ih =>
    intro c hc
    unfold digitsToNat at h
    by_cases hd : c0.isDigit = true
    · rw [if_pos hd] at h
      rcases List.mem_cons.mp hc with hc | hc
      · rw [hc]
        exact hd
      · exact ih h c hc
    · rw [if_neg hd] at h
      exact Option.noConfusion h

theorem listHasSub_amf_eq_false {l : List Char} (ha : 'a' ∉ l) :
    listHasSub l ['a', 'm', 'f'] = false := by
  induction l with
  | nil => rfl
  | cons c cs ih =>
    unfold listHasSub
    have hne : (c == 'a') = false := by
      rw [beq_eq_false_iff_ne]
      intro hc
      exact ha (hc ▸ List.mem_cons_self c cs)
    have h1 : listStartsWith (c :: cs) ['a', 'm', 'f'] = false := by
      unfold listStartsWith
      have hca : (c == 'a') = false := hne
      rw [hca, Bool.false_and]
    rw [h1, Bool.false_or]
    exact ih (fun hm => ha (List.mem_cons_of_mem c hm))

/-- A string that int() accepts contains no letter "a" at all: its
characters are surrounding whitespace, an optional sign, and digits. -/
theorem pyInt_no_a {v : String} {n : Int} (h : pyInt v = some n) :
    'a' ∉ v.data := by
  unfold pyInt at h
  intro hmem
  have h1 : 'a' ∈ v.data.dropWhile isPySpace := by
    have hsplit := List.takeWhile_append_dropWhile isPySpace v.data
    rw [← hsplit] at hmem
    rcases List.mem_append.mp hmem with hm | hm
    · have := List.mem_takeWhile_imp hm
      exact absurd this (by decide)
    · exact hm
  have h2 : 'a' ∈ ((v.data.dropWhile isPySpace).reverse.dropWhile isPySpace).reverse := by
    have hmemr : 'a' ∈ (v.data.dropWhile isPySpace).reverse := List.mem_reverse.mpr h1
    have hsplit := List.takeWhile_append_dropWhile isPySpace
      (v.data.dropWhile isPySpace).reverse
    rw [← hsplit] at hmemr
    rcases List.mem_append.mp hmemr with hm | hm
    · have := List.mem_takeWhile_imp hm
      exact absurd this (by decide)
    · exact List.mem_reverse.mpr hm
  rcases hshape : ((v.data.dropWhile isPySpace).reverse.dropWhile isPySpace).reverse with
    _ | ⟨c0, rest⟩
  · rw [hshape] at h2
    exact absurd h2 (List.not_mem_nil _)
  · rw [hshape] at h h2
    simp only [pyIntChars] at h
    by_cases hminus : c0 = '-'
    · rw [if_pos hminus] at h
      by_cases hre : rest.isEmpty = true
      · rw [if_pos hre] at h
        exact Option.noConfusion h
      · rw [if_neg hre] at h
        split at h
        · exact Option.noConfusion h
        · next k hk =>
          rcases List.mem_cons.mp h2 with hc | hc
          · rw [hminus] at hc
            exact absurd hc (by decide)
          · have := digitsToNat_isDigit hk 'a' hc
            exact absurd this (by decide)
    · rw [if_neg hminus] at h
      by_cases hplus : c0 = '+'
      · rw [if_pos hplus] at h
        by_cases hre : rest.isEmpty = true
        · rw [if_pos hre] at h
          exact Option.noConfusion h
        · rw [if_neg hre] at h
          split at h
          · exact Option.noConfusion h
          · next k hk =>
            rcases List.mem_cons.mp h2 with hc | hc
            · rw [hplus] at hc
              exact absurd hc (by decide)
            · have := digitsToNat_isDigit hk 'a' hc
              exact absurd this (by decide)
      · rw [if_neg hplus] at h
        split at h
        · exact Option.noConfusion h
        · next k hk =>
          have := digitsToNat_isDigit hk 'a' h2
          exact absurd this (by decide)

/-- C2 failing input: the request declares Content-Length "amf" with some
body; host and path are present so processing reaches the request
reconciliation. -/
def rawC2 : RawData :=
  { host := some "http://example.com",
    request := some { path := some "/a", headers := [("Content-Length", "amf")],
                      body := some "abcde" },
    response := some {} }

/-- C2 (code bug): the AMF exception never produces an untruncated record.
First conjunct: any Content-Length value int() accepts cannot contain the
substring "amf", so the guard on lines 140-141 of burp.py is unreachable.
Second and third conjuncts: on a record whose Content-Length value is
"amf" (which the claim says skips truncation and constructs normally), the
int() call on line 139 raises ValueError before the guard, aborting
construction. -/
theorem c2_amf_guard_unreachable :
    (∀ (v : String) (n : Int), pyInt v = some n → pyIn "amf" v = false) ∧
    pyIn "amf" (headerGet (parse_headers [("Content-Length", "amf")]) "Content-Length" "")
      = true ∧
    construct (some rawC2) 0 = .error .valueError := by
  refine ⟨?_, rfl, rfl⟩
  intro v n h
  have hna := pyInt_no_a h
  have hdata : ("amf" : String).data = ['a', 'm', 'f'] := rfl
  unfold pyIn
  rw [hdata]
  exact listHasSub_amf_eq_false hna

/-- C3 failing input: a non-empty raw record that contains both the
request and response keys, with every sub-key missing. -/
def rawC3 : RawData :=
  { request := some {}, response := some {} }

/-- C3 (code bug): on the well-formed-but-incomplete record `rawC3` the
construction raises AttributeError instead of succeeding with defaults.
The "/" default of self._request.get("path", "/") on line 126 is dead
because _request.update stored the path key with value None, so
urljoin(None, None) returns None and urlparse raises on it. -/
theorem c3_empty_subrecords_raise :
    construct (some rawC3) 0 = .error .attributeError := rfl

/-- C6 failing input: a host is present but the request path key is
missing. -/
def rawC6 : RawData :=
  { host := some "http://example.com", request := some {}, response := some {} }

/-- C6 (code bug): with a host and a missing path, the claimed "/" default
never applies: the stored path is None, urljoin("http://example.com", None)
returns the host string itself, and the resolved URL has the empty path
instead of "/". -/
theorem c6_missing_path_no_default :
    Except.map Burp.url (construct (some rawC6) 0)
      = .ok (some ⟨"http", "example.com", "", "", "", ""⟩) := rfl

end GdsBurp
